import Mathlib

/-!
Shallow embedding of the Synacor challenge virtual machine implemented in
`src/main.rs` (struct `VM` and its methods, in particular `VM::step`).

Modelling conventions:
* `u16` and `u8` values are `Nat`s; wherever the Rust code performs `u16`
  arithmetic that can overflow (`addr * 2`, `addr + k`, `b + c`), the
  embedding checks the mathematical result against `2^16` and fails like a
  debug-profile Rust build does ("attempt to ... with overflow" panic).
* `Vec<u8>` indexing panics translate to an `outOfBounds` error carrying the
  offending index; `expect`/`panic!` calls translate to the corresponding
  error constructor.
* Rust's `%` on integers panics when the divisor is zero, so the `mod`
  opcode checks its divisor explicitly (Lean's `Nat.mod` would silently
  return the dividend).
* The bitwise complement `!b` on a `u16` value `b` is `65535 - b`; the
  `as u8` casts in `wmem` are `% 256`.
* Reading the interactive stream (stdin) inside opcode 20 is an external
  effect that cannot occur in a pure embedding; it is represented by the
  `stdinRead` marker error.  All claims about opcode 20 concern the
  input-buffer path, which never reaches stdin.
-/

namespace Synacor

/-- Failure modes of one VM step; each corresponds to a `panic!`/`expect`/
index-check abort in the Rust source. -/
inductive VMError where
  /-- Vec index out of bounds at the given byte index (`self.ram[ptr]`). -/
  | outOfBounds (ptr : Nat)
  /-- Panic in `get_ram_value`: a fetched word is ≥ 32776. -/
  | invalidWord (addr num : Nat)
  /-- Panic in `get_register`: operand classified as a literal. -/
  | typeMismatch
  /-- Panic in `pop_stack`: `expect("stack was empty")`. -/
  | stackUnderflow
  /-- Panic on an unknown instruction word. -/
  | unknownOpcode (n : Nat)
  /-- Arithmetic overflow/underflow panic of a debug-profile build. -/
  | overflow
  /-- Panic of Rust `%` with a zero divisor. -/
  | divByZero
  /-- Marker for the unmodelled blocking read of the interactive stream. -/
  | stdinRead
  /-- Panic of `assert!(self.running)` when stepping a halted machine. -/
  | assertHalted
deriving DecidableEq

/-- Machine state, mirroring `struct VM` in `src/main.rs`.  `ram` is the
byte vector (`Vec<u8>`), `registers` the eight `u16` registers, `addr` the
program counter, `stack` the execution stack with its top at the list head
(`Vec` push/pop act on the end; a head-cons list has the same LIFO
behaviour), `level` the diagnostic call-depth counter. -/
structure VM where
  ram : List Nat
  registers : List Nat
  addr : Nat
  stack : List Nat
  running : Bool
  level : Nat
  input_buffer : List Nat
deriving DecidableEq

/-- `VM::new`: ram is the ROM bytes verbatim (no padding to 32768 words),
everything else comes from `Default` except `running = true`. -/
def VM.new (rom : List Nat) : VM :=
  { ram := rom
    registers := List.replicate 8 0
    addr := 0
    stack := []
    running := true
    level := 0
    input_buffer := [] }

/-- Check of a `u16` arithmetic result: a debug-profile Rust build panics
when the mathematical result does not fit in 16 bits. -/
def u16chk (n : Nat) : Except VMError Nat :=
  if n < 65536 then pure n else throw .overflow

/-- `VM::push_stack`. -/
def VM.push_stack (vm : VM) (value : Nat) : VM :=
  { vm with stack := value :: vm.stack }

/-- `VM::pop_stack`: `self.stack.pop().expect("stack was empty")` — panics
on an empty stack. -/
def VM.pop_stack (vm : VM) : Except VMError (Nat × VM) :=
  match vm.stack with
  | [] => throw .stackUnderflow
  | v :: rest => pure (v, { vm with stack := rest })

/-- `VM::get_ram`: `ptr = (addr * 2) as u16` (overflow-checked), then the
two byte reads `ram[ptr]`, `ram[ptr + 1]` (each index-checked against
`ram.len()`), decoded as `(high << 8) + low`.  `high ≤ 255` because ram
holds bytes, so the shift cannot overflow `u16`. -/
def VM.get_ram (vm : VM) (addr : Nat) : Except VMError Nat := do
  let ptr ← u16chk (addr * 2)
  let some low := vm.ram.get? ptr | throw (.outOfBounds ptr)
  let some high := vm.ram.get? (ptr + 1) | throw (.outOfBounds (ptr + 1))
  pure (high * 256 + low)

/-- Operand classification, mirroring `enum ValueType`. -/
inductive ValueType where
  | Register (n : Nat)
  | Literal (n : Nat)
deriving DecidableEq

/-- `VM::get_ram_value`: literal below 32768, register reference below
32776, panic otherwise. -/
def VM.get_ram_value (vm : VM) (addr : Nat) : Except VMError ValueType := do
  let num ← vm.get_ram addr
  if num < 32768 then
    pure (.Literal num)
  else if num < 32776 then
    pure (.Register (num % 32768))
  else
    throw (.invalidWord addr num)

/-- `VM::get_register`: requires the word at `addr` to classify as a
register reference; panics on a literal. -/
def VM.get_register (vm : VM) (addr : Nat) : Except VMError Nat := do
  match ← vm.get_ram_value addr with
  | .Register n => pure n
  | .Literal _ => throw .typeMismatch

/-- `VM::get_value`: a literal yields itself, a register reference yields
the register's current contents.  Register indices produced by
`get_ram_value` are below 8, so the `getD` default is never used. -/
def VM.get_value (vm : VM) (addr : Nat) : Except VMError Nat := do
  match ← vm.get_ram_value addr with
  | .Register r => pure (vm.registers.getD r 0)
  | .Literal n => pure n

/-- `VM::set_register`.  Callers inside `step` only pass indices below 8
(they come from `num % 32768` with `num < 32776`), where `List.set` and the
Rust array store agree. -/
def VM.set_register (vm : VM) (register : Nat) (value : Nat) : VM :=
  { vm with registers := vm.registers.set register value }

/-- `VM::jump`. -/
def VM.jump (vm : VM) (addr : Nat) : VM :=
  { vm with addr := addr }

/-- `VM::step`: one fetch-decode-execute transition, opcode by opcode as in
`src/main.rs` lines 131-478.  Logging calls have no state effect and are
dropped; `out` (opcode 19) writes to stderr, which the claims do not
observe. -/
def VM.step (vm : VM) : Except VMError VM := do
  if !vm.running then throw .assertHalted else
  let instruction ← vm.get_value vm.addr
  match instruction with
  | 0 =>
      -- halt
      pure { vm with running := false }
  | 1 => do
      -- set: 1 a b
      let a ← vm.get_register (← u16chk (vm.addr + 1))
      let b ← vm.get_value (← u16chk (vm.addr + 2))
      let a2 ← u16chk (vm.addr + 3)
      pure { vm.set_register a b with addr := a2 }
  | 2 => do
      -- push: 2 a
      let a ← vm.get_value (← u16chk (vm.addr + 1))
      let a2 ← u16chk (vm.addr + 2)
      pure { vm.push_stack a with addr := a2 }
  | 3 => do
      -- pop: 3 a
      let a ← vm.get_register (← u16chk (vm.addr + 1))
      let (elem, vm) ← vm.pop_stack
      let a2 ← u16chk (vm.addr + 2)
      pure { vm.set_register a elem with addr := a2 }
  | 4 => do
      -- eq: 4 a b c
      let a ← vm.get_register (← u16chk (vm.addr + 1))
      let b ← vm.get_value (← u16chk (vm.addr + 2))
      let c ← vm.get_value (← u16chk (vm.addr + 3))
      let a2 ← u16chk (vm.addr + 4)
      pure { vm.set_register a (if b = c then 1 else 0) with addr := a2 }
  | 5 => do
      -- gt: 5 a b c
      let a ← vm.get_register (← u16chk (vm.addr + 1))
      let b ← vm.get_value (← u16chk (vm.addr + 2))
      let c ← vm.get_value (← u16chk (vm.addr + 3))
      let a2 ← u16chk (vm.addr + 4)
      pure { vm.set_register a (if b > c then 1 else 0) with addr := a2 }
  | 6 => do
      -- jmp: 6 a
      let a ← vm.get_value (← u16chk (vm.addr + 1))
      pure (vm.jump a)
  | 7 => do
      -- jt: 7 a b
      let a ← vm.get_value (← u16chk (vm.addr + 1))
      let b ← vm.get_value (← u16chk (vm.addr + 2))
      if a ≠ 0 then
        pure (vm.jump b)
      else
        let a2 ← u16chk (vm.addr + 3)
        pure { vm with addr := a2 }
  | 8 => do
      -- jf: 8 a b
      let a ← vm.get_value (← u16chk (vm.addr + 1))
      let b ← vm.get_value (← u16chk (vm.addr + 2))
      if a = 0 then
        pure (vm.jump b)
      else
        let a2 ← u16chk (vm.addr + 3)
        pure { vm with addr := a2 }
  | 9 => do
      -- add: 9 a b c ; `(b + c)` is a u16 addition, then `% 32768`
      let a ← vm.get_register (← u16chk (vm.addr + 1))
      let b ← vm.get_value (← u16chk (vm.addr + 2))
      let c ← vm.get_value (← u16chk (vm.addr + 3))
      let s ← u16chk (b + c)
      let a2 ← u16chk (vm.addr + 4)
      pure { vm.set_register a (s % 32768) with addr := a2 }
  | 10 => do
      -- mult: 10 a b c ; computed in u32, which cannot overflow
      let a ← vm.get_register (← u16chk (vm.addr + 1))
      let b ← vm.get_value (← u16chk (vm.addr + 2))
      let c ← vm.get_value (← u16chk (vm.addr + 3))
      let a2 ← u16chk (vm.addr + 4)
      pure { vm.set_register a (b * c % 32768) with addr := a2 }
  | 11 => do
      -- mod: 11 a b c ; Rust `%` panics on a zero divisor
      let a ← vm.get_register (← u16chk (vm.addr + 1))
      let b ← vm.get_value (← u16chk (vm.addr + 2))
      let c ← vm.get_value (← u16chk (vm.addr + 3))
      if c = 0 then throw .divByZero else
      let a2 ← u16chk (vm.addr + 4)
      pure { vm.set_register a (b % c % 32768) with addr := a2 }
  | 12 => do
      -- and: 12 a b c
      let a ← vm.get_register (← u16chk (vm.addr + 1))
      let b ← vm.get_value (← u16chk (vm.addr + 2))
      let c ← vm.get_value (← u16chk (vm.addr + 3))
      let a2 ← u16chk (vm.addr + 4)
      pure { vm.set_register a ((b &&& c) % 32768) with addr := a2 }
  | 13 => do
      -- or: 13 a b c
      let a ← vm.get_register (← u16chk (vm.addr + 1))
      let b ← vm.get_value (← u16chk (vm.addr + 2))
      let c ← vm.get_value (← u16chk (vm.addr + 3))
      let a2 ← u16chk (vm.addr + 4)
      pure { vm.set_register a ((b ||| c) % 32768) with addr := a2 }
  | 14 => do
      -- not: 14 a b ; `!b` on a u16 value b is 65535 - b, then `% 32768`
      let a ← vm.get_register (← u16chk (vm.addr + 1))
      let b ← vm.get_value (← u16chk (vm.addr + 2))
      let a2 ← u16chk (vm.addr + 3)
      pure { vm.set_register a ((65535 - b) % 32768) with addr := a2 }
  | 15 => do
      -- rmem: 15 a b ; stores the raw memory word, unmasked
      let a ← vm.get_register (← u16chk (vm.addr + 1))
      let b ← vm.get_value (← u16chk (vm.addr + 2))
      let num ← vm.get_ram b
      let a2 ← u16chk (vm.addr + 3)
      pure { vm.set_register a num with addr := a2 }
  | 16 => do
      -- wmem: 16 a b ; low byte at a*2, high byte at a*2+1 (`as u8` casts)
      let a ← vm.get_value (← u16chk (vm.addr + 1))
      let b ← vm.get_value (← u16chk (vm.addr + 2))
      let high := b / 256
      let low := b % 256
      let ptr ← u16chk (a * 2)
      if ptr < vm.ram.length then
        if ptr + 1 < vm.ram.length then
          let a2 ← u16chk (vm.addr + 3)
          pure { vm with
                 ram := (vm.ram.set ptr (low % 256)).set (ptr + 1) (high % 256)
                 addr := a2 }
        else throw (.outOfBounds (ptr + 1))
      else throw (.outOfBounds ptr)
  | 17 => do
      -- call: 17 a ; the hardcoded `a == 6049` hook is an empty block
      let a ← vm.get_value (← u16chk (vm.addr + 1))
      let ret_addr ← u16chk (vm.addr + 2)
      let vm := vm.push_stack ret_addr
      pure { vm.jump a with level := vm.level + 1 }
  | 18 => do
      -- ret: 18 ; pop_stack panics on an empty stack, then `level -= 1`
      -- (a usize subtraction, which underflow-panics at level 0)
      let (elem, vm) ← vm.pop_stack
      if vm.level = 0 then throw .overflow else
      pure { vm.jump elem with level := vm.level - 1 }
  | 19 => do
      -- out: 19 a ; the byte goes to stderr, outside the machine state
      let _a ← vm.get_value (← u16chk (vm.addr + 1))
      let a2 ← u16chk (vm.addr + 2)
      pure { vm with addr := a2 }
  | 20 => do
      -- in: 20 a ; front of the input buffer if non-empty, stdin otherwise
      let a ← vm.get_register (← u16chk (vm.addr + 1))
      match vm.input_buffer with
      | c :: rest =>
          let a2 ← u16chk (vm.addr + 2)
          pure { vm.set_register a c with input_buffer := rest, addr := a2 }
      | [] =>
          -- blocking stdin read (and the '/' debug-command escape) —
          -- external effect, not modelled
          throw .stdinRead
  | 21 => do
      -- no-op
      let a2 ← u16chk (vm.addr + 1)
      pure { vm with addr := a2 }
  | n =>
      throw (.unknownOpcode n)

/-- Little-endian byte encoding of one 16-bit word, as the program image
format stores it (low byte first). -/
def encodeWord (w : Nat) : List Nat :=
  [w % 256, w / 256]

/-- Byte image of a list of words: the ROM layout `VM::new` receives. -/
def encodeWords : List Nat → List Nat
  | [] => []
  | w :: ws => encodeWord w ++ encodeWords ws

/-- Destination register 0 of a one-instruction program, after one step. -/
def runReg0 (ws : List Nat) : Except VMError Nat :=
  (VM.new (encodeWords ws)).step.map fun v => v.registers.getD 0 0

/-! Helper lemmas about the `Except` monad and the byte encoding. -/

theorem exbind_ok {α β : Type} (a : α) (f : α → Except VMError β) :
    (Except.ok a : Except VMError α) >>= f = f a := rfl

theorem exbind_err {α β : Type} (e : VMError) (f : α → Except VMError β) :
    (Except.error e : Except VMError α) >>= f = Except.error e := rfl

theorem exbind_ok_inv {α β : Type} {e : Except VMError α}
    {f : α → Except VMError β} {b : β} (h : e >>= f = .ok b) :
    ∃ a, e = .ok a ∧ f a = .ok b := by
  cases e with
  | error err => exact absurd h (by simp [Bind.bind, Except.bind])
  | ok a => exact ⟨a, rfl, h⟩

theorem u16chk_lt {n : Nat} (h : n < 65536) : u16chk n = pure n := by
  simp [u16chk, h]

theorem u16chk_ge {n : Nat} (h : 65536 ≤ n) : u16chk n = .error .overflow := by
  unfold u16chk
  rw [if_neg (by omega)]
  rfl

theorem encodeWords_length (ws : List Nat) :
    (encodeWords ws).length = 2 * ws.length := by
  induction ws with
  | nil => rfl
  | cons w ws ih => simp [encodeWords, encodeWord, ih]; omega

theorem encodeWords_get?_low (ws : List Nat) :
    ∀ i, i < ws.length → (encodeWords ws).get? (i * 2) = some (ws.getD i 0 % 256) := by
  induction ws with
  | nil => intro i h; simp at h
  | cons w ws ih =>
      intro i h
      match i with
      | 0 => rfl
      | i + 1 =>
          have h2 : (i + 1) * 2 = i * 2 + 1 + 1 := by omega
          rw [h2]
          show (encodeWords ws).get? (i * 2) = some ((w :: ws).getD (i + 1) 0 % 256)
          simpa [List.getD] using ih i (by simpa using h)

theorem encodeWords_get?_high (ws : List Nat) :
    ∀ i, i < ws.length → (encodeWords ws).get? (i * 2 + 1) = some (ws.getD i 0 / 256) := by
  induction ws with
  | nil => intro i h; simp at h
  | cons w ws ih =>
      intro i h
      match i with
      | 0 => rfl
      | i + 1 =>
          have h2 : (i + 1) * 2 + 1 = i * 2 + 1 + 1 + 1 := by omega
          rw [h2]
          show (encodeWords ws).get? (i * 2 + 1) = some ((w :: ws).getD (i + 1) 0 / 256)
          simpa [List.getD] using ih i (by simpa using h)

theorem get_ram_encode {vm : VM} {w : List Nat} (i : Nat)
    (hram : vm.ram = encodeWords w) (hi : i < w.length) (hcap : i < 32768) :
    vm.get_ram i = .ok (w.getD i 0) := by
  unfold VM.get_ram
  rw [u16chk_lt (by omega), hram]
  simp only [pure_bind, encodeWords_get?_low w i hi, encodeWords_get?_high w i hi]
  have hdm : w.getD i 0 / 256 * 256 + w.getD i 0 % 256 = w.getD i 0 := by omega
  rw [hdm]
  rfl

theorem get_ram_value_encode_lit {vm : VM} {w : List Nat} (i : Nat)
    (hram : vm.ram = encodeWords w) (hi : i < w.length) (hcap : i < 32768)
    (hw : w.getD i 0 < 32768) :
    vm.get_ram_value i = .ok (.Literal (w.getD i 0)) := by
  unfold VM.get_ram_value
  rw [get_ram_encode i hram hi hcap, exbind_ok, if_pos hw]
  rfl

theorem get_ram_value_encode_reg {vm : VM} {w : List Nat} (i : Nat)
    (hram : vm.ram = encodeWords w) (hi : i < w.length) (hcap : i < 32768)
    (h1 : 32768 ≤ w.getD i 0) (h2 : w.getD i 0 < 32776) :
    vm.get_ram_value i = .ok (.Register (w.getD i 0 % 32768)) := by
  unfold VM.get_ram_value
  rw [get_ram_encode i hram hi hcap, exbind_ok]
  have hn : ¬ w.getD i 0 < 32768 := by omega
  rw [if_neg hn, if_pos h2]
  rfl

theorem get_value_encode_lit {vm : VM} {w : List Nat} (i : Nat)
    (hram : vm.ram = encodeWords w) (hi : i < w.length) (hcap : i < 32768)
    (hw : w.getD i 0 < 32768) :
    vm.get_value i = .ok (w.getD i 0) := by
  unfold VM.get_value
  rw [get_ram_value_encode_lit i hram hi hcap hw, exbind_ok]
  rfl

theorem get_register_encode {vm : VM} {w : List Nat} (i : Nat)
    (hram : vm.ram = encodeWords w) (hi : i < w.length) (hcap : i < 32768)
    (h1 : 32768 ≤ w.getD i 0) (h2 : w.getD i 0 < 32776) :
    vm.get_register i = .ok (w.getD i 0 % 32768) := by
  unfold VM.get_register
  rw [get_ram_value_encode_reg i hram hi hcap h1 h2, exbind_ok]
  rfl

theorem new_running (rom : List Nat) : (VM.new rom).running = true := rfl

theorem new_addr (rom : List Nat) : (VM.new rom).addr = 0 := rfl

theorem new_ram (rom : List Nat) : (VM.new rom).ram = rom := rfl


/-! Per-opcode unfolding equations for `VM.step`: when the machine is
running and the fetched instruction word is the given opcode, one step is
the corresponding arm of the dispatch.  Each right-hand side transcribes
the arm of `VM.step` verbatim; the proofs are definitional once the fetch
is rewritten. -/

theorem step_eq_0 (vm : VM) (hrun : vm.running = true)
    (h : vm.get_value vm.addr = .ok 0) :
    vm.step = pure { vm with running := false } := by
  unfold VM.step
  rw [hrun, h]
  rfl

theorem step_eq_1 (vm : VM) (hrun : vm.running = true)
    (h : vm.get_value vm.addr = .ok 1) :
    vm.step = (do
      let a ← vm.get_register (← u16chk (vm.addr + 1))
      let b ← vm.get_value (← u16chk (vm.addr + 2))
      let a2 ← u16chk (vm.addr + 3)
      pure { vm.set_register a b with addr := a2 } : Except VMError VM) := by
  unfold VM.step
  rw [hrun, h]
  rfl

theorem step_eq_2 (vm : VM) (hrun : vm.running = true)
    (h : vm.get_value vm.addr = .ok 2) :
    vm.step = (do
      let a ← vm.get_value (← u16chk (vm.addr + 1))
      let a2 ← u16chk (vm.addr + 2)
      pure { vm.push_stack a with addr := a2 } : Except VMError VM) := by
  unfold VM.step
  rw [hrun, h]
  rfl

theorem step_eq_3 (vm : VM) (hrun : vm.running = true)
    (h : vm.get_value vm.addr = .ok 3) :
    vm.step = (do
      let a ← vm.get_register (← u16chk (vm.addr + 1))
      let (elem, vm2) ← vm.pop_stack
      let a2 ← u16chk (vm2.addr + 2)
      pure { vm2.set_register a elem with addr := a2 } : Except VMError VM) := by
  unfold VM.step
  rw [hrun, h]
  rfl

theorem step_eq_4 (vm : VM) (hrun : vm.running = true)
    (h : vm.get_value vm.addr = .ok 4) :
    vm.step = (do
      let a ← vm.get_register (← u16chk (vm.addr + 1))
      let b ← vm.get_value (← u16chk (vm.addr + 2))
      let c ← vm.get_value (← u16chk (vm.addr + 3))
      let a2 ← u16chk (vm.addr + 4)
      pure { vm.set_register a (if b = c then 1 else 0) with addr := a2 } :
        Except VMError VM) := by
  unfold VM.step
  rw [hrun, h]
  rfl

theorem step_eq_5 (vm : VM) (hrun : vm.running = true)
    (h : vm.get_value vm.addr = .ok 5) :
    vm.step = (do
      let a ← vm.get_register (← u16chk (vm.addr + 1))
      let b ← vm.get_value (← u16chk (vm.addr + 2))
      let c ← vm.get_value (← u16chk (vm.addr + 3))
      let a2 ← u16chk (vm.addr + 4)
      pure { vm.set_register a (if b > c then 1 else 0) with addr := a2 } :
        Except VMError VM) := by
  unfold VM.step
  rw [hrun, h]
  rfl

theorem step_eq_6 (vm : VM) (hrun : vm.running = true)
    (h : vm.get_value vm.addr = .ok 6) :
    vm.step = (do
      let a ← vm.get_value (← u16chk (vm.addr + 1))
      pure (vm.jump a) : Except VMError VM) := by
  unfold VM.step
  rw [hrun, h]
  rfl

theorem step_eq_7 (vm : VM) (hrun : vm.running = true)
    (h : vm.get_value vm.addr = .ok 7) :
    vm.step = (do
      let a ← vm.get_value (← u16chk (vm.addr + 1))
      let b ← vm.get_value (← u16chk (vm.addr + 2))
      if a ≠ 0 then
        pure (vm.jump b)
      else
        let a2 ← u16chk (vm.addr + 3)
        pure { vm with addr := a2 } : Except VMError VM) := by
  unfold VM.step
  rw [hrun, h]
  rfl

theorem step_eq_8 (vm : VM) (hrun : vm.running = true)
    (h : vm.get_value vm.addr = .ok 8) :
    vm.step = (do
      let a ← vm.get_value (← u16chk (vm.addr + 1))
      let b ← vm.get_value (← u16chk (vm.addr + 2))
      if a = 0 then
        pure (vm.jump b)
      else
        let a2 ← u16chk (vm.addr + 3)
        pure { vm with addr := a2 } : Except VMError VM) := by
  unfold VM.step
  rw [hrun, h]
  rfl

theorem step_eq_9 (vm : VM) (hrun : vm.running = true)
    (h : vm.get_value vm.addr = .ok 9) :
    vm.step = (do
      let a ← vm.get_register (← u16chk (vm.addr + 1))
      let b ← vm.get_value (← u16chk (vm.addr + 2))
      let c ← vm.get_value (← u16chk (vm.addr + 3))
      let s ← u16chk (b + c)
      let a2 ← u16chk (vm.addr + 4)
      pure { vm.set_register a (s % 32768) with addr := a2 } :
        Except VMError VM) := by
  unfold VM.step
  rw [hrun, h]
  rfl

theorem step_eq_10 (vm : VM) (hrun : vm.running = true)
    (h : vm.get_value vm.addr = .ok 10) :
    vm.step = (do
      let a ← vm.get_register (← u16chk (vm.addr + 1))
      let b ← vm.get_value (← u16chk (vm.addr + 2))
      let c ← vm.get_value (← u16chk (vm.addr + 3))
      let a2 ← u16chk (vm.addr + 4)
      pure { vm.set_register a (b * c % 32768) with addr := a2 } :
        Except VMError VM) := by
  unfold VM.step
  rw [hrun, h]
  rfl

theorem step_eq_11 (vm : VM) (hrun : vm.running = true)
    (h : vm.get_value vm.addr = .ok 11) :
    vm.step = (do
      let a ← vm.get_register (← u16chk (vm.addr + 1))
      let b ← vm.get_value (← u16chk (vm.addr + 2))
      let c ← vm.get_value (← u16chk (vm.addr + 3))
      if c = 0 then throw .divByZero else
      let a2 ← u16chk (vm.addr + 4)
      pure { vm.set_register a (b % c % 32768) with addr := a2 } :
        Except VMError VM) := by
  unfold VM.step
  rw [hrun, h]
  rfl

theorem step_eq_12 (vm : VM) (hrun : vm.running = true)
    (h : vm.get_value vm.addr = .ok 12) :
    vm.step = (do
      let a ← vm.get_register (← u16chk (vm.addr + 1))
      let b ← vm.get_value (← u16chk (vm.addr + 2))
      let c ← vm.get_value (← u16chk (vm.addr + 3))
      let a2 ← u16chk (vm.addr + 4)
      pure { vm.set_register a ((b &&& c) % 32768) with addr := a2 } :
        Except VMError VM) := by
  unfold VM.step
  rw [hrun, h]
  rfl

theorem step_eq_13 (vm : VM) (hrun : vm.running = true)
    (h : vm.get_value vm.addr = .ok 13) :
    vm.step = (do
      let a ← vm.get_register (← u16chk (vm.addr + 1))
      let b ← vm.get_value (← u16chk (vm.addr + 2))
      let c ← vm.get_value (← u16chk (vm.addr + 3))
      let a2 ← u16chk (vm.addr + 4)
      pure { vm.set_register a ((b ||| c) % 32768) with addr := a2 } :
        Except VMError VM) := by
  unfold VM.step
  rw [hrun, h]
  rfl

theorem step_eq_14 (vm : VM) (hrun : vm.running = true)
    (h : vm.get_value vm.addr = .ok 14) :
    vm.step = (do
      let a ← vm.get_register (← u16chk (vm.addr + 1))
      let b ← vm.get_value (← u16chk (vm.addr + 2))
      let a2 ← u16chk (vm.addr + 3)
      pure { vm.set_register a ((65535 - b) % 32768) with addr := a2 } :
        Except VMError VM) := by
  unfold VM.step
  rw [hrun, h]
  rfl

theorem step_eq_15 (vm : VM) (hrun : vm.running = true)
    (h : vm.get_value vm.addr = .ok 15) :
    vm.step = (do
      let a ← vm.get_register (← u16chk (vm.addr + 1))
      let b ← vm.get_value (← u16chk (vm.addr + 2))
      let num ← vm.get_ram b
      let a2 ← u16chk (vm.addr + 3)
      pure { vm.set_register a num with addr := a2 } : Except VMError VM) := by
  unfold VM.step
  rw [hrun, h]
  rfl

theorem step_eq_16 (vm : VM) (hrun : vm.running = true)
    (h : vm.get_value vm.addr = .ok 16) :
    vm.step = (do
      let a ← vm.get_value (← u16chk (vm.addr + 1))
      let b ← vm.get_value (← u16chk (vm.addr + 2))
      let high := b / 256
      let low := b % 256
      let ptr ← u16chk (a * 2)
      if ptr < vm.ram.length then
        if ptr + 1 < vm.ram.length then
          let a2 ← u16chk (vm.addr + 3)
          pure { vm with
                 ram := (vm.ram.set ptr (low % 256)).set (ptr + 1) (high % 256)
                 addr := a2 }
        else throw (.outOfBounds (ptr + 1))
      else throw (.outOfBounds ptr) : Except VMError VM) := by
  unfold VM.step
  rw [hrun, h]
  rfl

theorem step_eq_17 (vm : VM) (hrun : vm.running = true)
    (h : vm.get_value vm.addr = .ok 17) :
    vm.step = (do
      let a ← vm.get_value (← u16chk (vm.addr + 1))
      let ret_addr ← u16chk (vm.addr + 2)
      let vm2 := vm.push_stack ret_addr
      pure { vm2.jump a with level := vm2.level + 1 } : Except VMError VM) := by
  unfold VM.step
  rw [hrun, h]
  rfl

theorem step_eq_18 (vm : VM) (hrun : vm.running = true)
    (h : vm.get_value vm.addr = .ok 18) :
    vm.step = (do
      let (elem, vm2) ← vm.pop_stack
      if vm2.level = 0 then throw .overflow else
      pure { vm2.jump elem with level := vm2.level - 1 } :
        Except VMError VM) := by
  unfold VM.step
  rw [hrun, h]
  rfl

theorem step_eq_19 (vm : VM) (hrun : vm.running = true)
    (h : vm.get_value vm.addr = .ok 19) :
    vm.step = (do
      let _a ← vm.get_value (← u16chk (vm.addr + 1))
      let a2 ← u16chk (vm.addr + 2)
      pure { vm with addr := a2 } : Except VMError VM) := by
  unfold VM.step
  rw [hrun, h]
  rfl

theorem step_eq_20 (vm : VM) (hrun : vm.running = true)
    (h : vm.get_value vm.addr = .ok 20) :
    vm.step = (do
      let a ← vm.get_register (← u16chk (vm.addr + 1))
      match vm.input_buffer with
      | c :: rest =>
          let a2 ← u16chk (vm.addr + 2)
          pure { vm.set_register a c with input_buffer := rest, addr := a2 }
      | [] => throw .stdinRead : Except VMError VM) := by
  unfold VM.step
  rw [hrun, h]
  rfl

theorem step_eq_21 (vm : VM) (hrun : vm.running = true)
    (h : vm.get_value vm.addr = .ok 21) :
    vm.step = (do
      let a2 ← u16chk (vm.addr + 1)
      pure { vm with addr := a2 } : Except VMError VM) := by
  unfold VM.step
  rw [hrun, h]
  rfl

theorem step_eq_unknown (vm : VM) (n : Nat) (hrun : vm.running = true)
    (h : vm.get_value vm.addr = .ok (n + 22)) :
    vm.step = .error (.unknownOpcode (n + 22)) := by
  unfold VM.step
  rw [hrun, h]
  rfl

/-! Claim theorems. -/

/-- C1: the claim says a `ret` (opcode 18) on an empty Execution Stack halts
the machine cleanly (running flag false, no error).  The code instead calls
`pop_stack`, whose `expect("stack was empty")` panics, even though the
comment above the opcode arm says "empty stack = halt".  This theorem
evaluates the embedding at the failing input: a freshly loaded one-word
program `[18]` (empty stack, running) whose step aborts with the
stack-underflow panic instead of returning a halted machine. -/
theorem C1_ret_on_empty_stack_panics :
    (VM.new (encodeWords [18])).step = .error .stackUnderflow := rfl

/-- C2 counterexample: the claim says `read(addr)` decodes the two bytes at
`addr*2`, `addr*2+1` whenever `addr < 32768` and only fails beyond a
32768-word capacity.  On a machine loaded from a one-word ROM, reading
address 1 — far below 32768 — already fails: the check is against the
loaded image's byte length, not against 32768 words. -/
theorem C2_counterexample_short_image :
    1 < 32768 ∧ (VM.new (encodeWords [5])).get_ram 1 = .error (.outOfBounds 2) :=
  ⟨by decide, rfl⟩

/-- C2 amended: `get_ram addr` decodes `(high<<8)+low` from the bytes at
`addr*2` and `addr*2+1` exactly when `addr*2+1` is inside the loaded
image (`ram.len()`); with `addr < 32768` but the byte offset past the image
it fails with an index-out-of-bounds panic, and for `addr ≥ 32768` it fails
with the `u16` multiply-overflow panic of `addr * 2` — there is no check
against a fixed 32768-word capacity. -/
theorem C2_get_ram_checked_against_image_length (vm : VM) (addr : Nat)
    (h16 : addr < 65536) :
    (addr < 32768 → addr * 2 + 1 < vm.ram.length →
      vm.get_ram addr =
        .ok (vm.ram.getD (addr * 2 + 1) 0 * 256 + vm.ram.getD (addr * 2) 0)) ∧
    (addr < 32768 → vm.ram.length ≤ addr * 2 + 1 →
      ∃ p, vm.get_ram addr = .error (.outOfBounds p)) ∧
    (32768 ≤ addr → vm.get_ram addr = .error .overflow) := by
  refine ⟨fun hlt hlen => ?_, fun hlt hlen => ?_, fun hge => ?_⟩
  · unfold VM.get_ram
    rw [u16chk_lt (by omega)]
    cases h1 : vm.ram.get? (addr * 2) with
    | none => exact absurd (List.get?_eq_none.1 h1) (by omega)
    | some low =>
        cases h2 : vm.ram.get? (addr * 2 + 1) with
        | none => exact absurd (List.get?_eq_none.1 h2) (by omega)
        | some high =>
            simp only [pure_bind, h1, h2]
            rw [List.getD_eq_getD_get? _ _ _, List.getD_eq_getD_get? _ _ _, h1, h2]
            rfl
  · unfold VM.get_ram
    rw [u16chk_lt (by omega)]
    cases h1 : vm.ram.get? (addr * 2) with
    | none => exact ⟨addr * 2, by simp only [pure_bind, h1]; rfl⟩
    | some low =>
        have hl : addr * 2 < vm.ram.length :=
          List.get?_eq_some.1 h1 |>.choose
        have h2 : vm.ram.get? (addr * 2 + 1) = none :=
          List.get?_eq_none.2 (by omega)
        exact ⟨addr * 2 + 1, by simp only [pure_bind, h1, h2]; rfl⟩
  · unfold VM.get_ram
    rw [u16chk_ge (by omega)]
    rfl

/-- Closed instance of the amended C2 theorem: decoding succeeds on an
in-image address of a two-word ROM, and reading address 40000 ≥ 32768
fails. -/
theorem C2_get_ram_checked_against_image_length_witness :
    (VM.new (encodeWords [513, 7])).get_ram 1 =
      .ok ((VM.new (encodeWords [513, 7])).ram.getD 3 0 * 256 +
        (VM.new (encodeWords [513, 7])).ram.getD 2 0) ∧
    (VM.new (encodeWords [513])).get_ram 40000 = .error .overflow :=
  ⟨(C2_get_ram_checked_against_image_length (VM.new (encodeWords [513, 7])) 1
      (by decide)).1 (by decide) (by decide),
   (C2_get_ram_checked_against_image_length (VM.new (encodeWords [513])) 40000
      (by decide)).2.2 (by decide)⟩

/-- C3: the claim says `pop` (opcode 3) on an empty stack is a fatal
StackUnderflow, *distinct from* `ret` on an empty stack, which should halt
normally.  In the code both opcodes funnel through the same
`pop_stack`/`expect` panic: `pop` does fail fatally as claimed, but `ret`
fails identically instead of halting (contradicting the code's own
"empty stack = halt" comment), so the claimed distinction does not exist. -/
theorem C3_pop_and_ret_panic_identically_on_empty_stack :
    (VM.new (encodeWords [3, 32768])).step = .error .stackUnderflow ∧
    (VM.new (encodeWords [18, 0])).step = .error .stackUnderflow :=
  ⟨rfl, rfl⟩

/-- C4 counterexample: the claim says no operation ever stores a value
≥ 32768 in a register.  `rmem` (opcode 15) copies the raw memory word into
its destination register without masking; on a program whose word at
address 4 is the register-reference code 32768, one step leaves register 0
holding 32768. -/
theorem C4_counterexample_rmem_stores_register_code :
    runReg0 [15, 32768, 4, 0, 32768] = .ok 32768 := rfl

/-- C6: for operand values `x, y` in [0,32767], `add` stores
`(x+y) mod 32768` (the u16 sum `x+y ≤ 65534` cannot overflow) and `mult`
stores `(x*y) mod 32768`, computed exactly because the source widens to u32
before multiplying — `x*y` here is the untruncated mathematical product. -/
theorem C6_add_and_mult_mod_32768 (x y : Nat) (hx : x < 32768) (hy : y < 32768) :
    runReg0 [9, 32768, x, y] = .ok ((x + y) % 32768) ∧
    runReg0 [10, 32768, x, y] = .ok (x * y % 32768) := by
  constructor
  · have h0 : (VM.new (encodeWords [9, 32768, x, y])).get_value 0 = .ok 9 := by
      simpa using get_value_encode_lit 0 (w := [9, 32768, x, y]) rfl
        (by simp) (by omega) (by simp)
    have h1 : (VM.new (encodeWords [9, 32768, x, y])).get_register 1 = .ok 0 := by
      simpa using get_register_encode 1 (w := [9, 32768, x, y]) rfl
        (by simp) (by omega) (by simp) (by simp)
    have h2 : (VM.new (encodeWords [9, 32768, x, y])).get_value 2 = .ok x := by
      simpa [List.getD] using get_value_encode_lit 2 (w := [9, 32768, x, y]) rfl
        (by simp) (by omega) (by simp [List.getD]; omega)
    have h3 : (VM.new (encodeWords [9, 32768, x, y])).get_value 3 = .ok y := by
      simpa [List.getD] using get_value_encode_lit 3 (w := [9, 32768, x, y]) rfl
        (by simp) (by omega) (by simp [List.getD]; omega)
    have e1 : u16chk ((VM.new (encodeWords [9, 32768, x, y])).addr + 1) = pure 1 := by
      rw [new_addr]; exact u16chk_lt (by omega)
    have e2 : u16chk ((VM.new (encodeWords [9, 32768, x, y])).addr + 2) = pure 2 := by
      rw [new_addr]; exact u16chk_lt (by omega)
    have e3 : u16chk ((VM.new (encodeWords [9, 32768, x, y])).addr + 3) = pure 3 := by
      rw [new_addr]; exact u16chk_lt (by omega)
    have exy : u16chk (x + y) = pure (x + y) := u16chk_lt (by omega)
    have e4 : u16chk ((VM.new (encodeWords [9, 32768, x, y])).addr + 4) = pure 4 := by
      rw [new_addr]; exact u16chk_lt (by omega)
    unfold runReg0
    rw [step_eq_9 _ rfl h0]
    simp only [e1, e2, e3, e4, exy, pure_bind, h1, h2, h3, exbind_ok]
    rfl
  · have h0 : (VM.new (encodeWords [10, 32768, x, y])).get_value 0 = .ok 10 := by
      simpa using get_value_encode_lit 0 (w := [10, 32768, x, y]) rfl
        (by simp) (by omega) (by simp)
    have h1 : (VM.new (encodeWords [10, 32768, x, y])).get_register 1 = .ok 0 := by
      simpa using get_register_encode 1 (w := [10, 32768, x, y]) rfl
        (by simp) (by omega) (by simp) (by simp)
    have h2 : (VM.new (encodeWords [10, 32768, x, y])).get_value 2 = .ok x := by
      simpa [List.getD] using get_value_encode_lit 2 (w := [10, 32768, x, y]) rfl
        (by simp) (by omega) (by simp [List.getD]; omega)
    have h3 : (VM.new (encodeWords [10, 32768, x, y])).get_value 3 = .ok y := by
      simpa [List.getD] using get_value_encode_lit 3 (w := [10, 32768, x, y]) rfl
        (by simp) (by omega) (by simp [List.getD]; omega)
    have e1 : u16chk ((VM.new (encodeWords [10, 32768, x, y])).addr + 1) = pure 1 := by
      rw [new_addr]; exact u16chk_lt (by omega)
    have e2 : u16chk ((VM.new (encodeWords [10, 32768, x, y])).addr + 2) = pure 2 := by
      rw [new_addr]; exact u16chk_lt (by omega)
    have e3 : u16chk ((VM.new (encodeWords [10, 32768, x, y])).addr + 3) = pure 3 := by
      rw [new_addr]; exact u16chk_lt (by omega)
    have e4 : u16chk ((VM.new (encodeWords [10, 32768, x, y])).addr + 4) = pure 4 := by
      rw [new_addr]; exact u16chk_lt (by omega)
    unfold runReg0
    rw [step_eq_10 _ rfl h0]
    simp only [e1, e2, e3, e4, pure_bind, h1, h2, h3, exbind_ok]
    rfl

/-- Closed instance of C6 at x = 300, y = 400: the product 120000 exceeds
the 16-bit range and is still reduced exactly. -/
theorem C6_add_and_mult_mod_32768_witness :
    runReg0 [9, 32768, 300, 400] = .ok ((300 + 400) % 32768) ∧
    runReg0 [10, 32768, 300, 400] = .ok (300 * 400 % 32768) :=
  C6_add_and_mult_mod_32768 300 400 (by decide) (by decide)

/-- C7: for operand value `b` in [0,32767], `not` stores the 15-bit bitwise
complement of `b`.  The source computes `!b % 32768`, i.e.
`(65535 - b) mod 32768`, which for `b < 2^15` is exactly `32767 - b` — the
number whose 15 bits are the flipped bits of `b` (`(~b) & 0x7FFF`).  The
second conjunct is the involution: applying the instruction to the result
gives back `b`. -/
theorem C7_not_is_15_bit_complement_and_involution (b : Nat) (hb : b < 32768) :
    runReg0 [14, 32768, b] = .ok (32767 - b) ∧
    runReg0 [14, 32768, 32767 - b] = .ok b := by
  have hcore : ∀ v, v < 32768 → runReg0 [14, 32768, v] = .ok (32767 - v) := by
    intro v hv
    have h0 : (VM.new (encodeWords [14, 32768, v])).get_value 0 = .ok 14 := by
      simpa using get_value_encode_lit 0 (w := [14, 32768, v]) rfl
        (by simp) (by omega) (by simp)
    have h1 : (VM.new (encodeWords [14, 32768, v])).get_register 1 = .ok 0 := by
      simpa using get_register_encode 1 (w := [14, 32768, v]) rfl
        (by simp) (by omega) (by simp) (by simp)
    have h2 : (VM.new (encodeWords [14, 32768, v])).get_value 2 = .ok v := by
      simpa [List.getD] using get_value_encode_lit 2 (w := [14, 32768, v]) rfl
        (by simp) (by omega) (by simp [List.getD]; omega)
    have e1 : u16chk ((VM.new (encodeWords [14, 32768, v])).addr + 1) = pure 1 := by
      rw [new_addr]; exact u16chk_lt (by omega)
    have e2 : u16chk ((VM.new (encodeWords [14, 32768, v])).addr + 2) = pure 2 := by
      rw [new_addr]; exact u16chk_lt (by omega)
    have e3 : u16chk ((VM.new (encodeWords [14, 32768, v])).addr + 3) = pure 3 := by
      rw [new_addr]; exact u16chk_lt (by omega)
    have hmod : (65535 - v) % 32768 = 32767 - v := by omega
    unfold runReg0
    rw [step_eq_14 _ rfl h0]
    simp only [e1, e2, e3, pure_bind, h1, h2, exbind_ok, hmod]
    rfl
  exact ⟨hcore b hb, by
    have h2 := hcore (32767 - b) (by omega)
    rwa [show 32767 - (32767 - b) = b by omega] at h2⟩

/-- Closed instance of C7 at b = 5: one application yields 32762, a second
application restores 5. -/
theorem C7_not_is_15_bit_complement_and_involution_witness :
    runReg0 [14, 32768, 5] = .ok (32767 - 5) ∧
    runReg0 [14, 32768, 32767 - 5] = .ok 5 :=
  C7_not_is_15_bit_complement_and_involution 5 (by decide)

/-- C9 counterexample: the claim quantifies over divisor values in
[0,32767] and asserts the step completes without failure, but `b % c` in
Rust panics for `c = 0`: executing `mod` with operands 5 and 0 aborts the
step with the divide-by-zero panic instead of storing a remainder. -/
theorem C9_counterexample_mod_zero_divisor :
    runReg0 [11, 32768, 5, 0] = .error .divByZero := rfl

/-- C9 amended: for `b` in [0,32767] and `c` in [1,32767] (a *nonzero*
divisor), `mod` stores `b % c` into the destination register and the step
completes; for `c = 0` the step fails with the Rust remainder-by-zero
panic. -/
theorem C9_mod_stores_remainder_for_nonzero_divisor (b c : Nat)
    (hb : b < 32768) (hc0 : 0 < c) (hc : c < 32768) :
    runReg0 [11, 32768, b, c] = .ok (b % c) := by
  have h0 : (VM.new (encodeWords [11, 32768, b, c])).get_value 0 = .ok 11 := by
    simpa using get_value_encode_lit 0 (w := [11, 32768, b, c]) rfl
      (by simp) (by omega) (by simp)
  have h1 : (VM.new (encodeWords [11, 32768, b, c])).get_register 1 = .ok 0 := by
    simpa using get_register_encode 1 (w := [11, 32768, b, c]) rfl
      (by simp) (by omega) (by simp) (by simp)
  have h2 : (VM.new (encodeWords [11, 32768, b, c])).get_value 2 = .ok b := by
    simpa [List.getD] using get_value_encode_lit 2 (w := [11, 32768, b, c]) rfl
      (by simp) (by omega) (by simp [List.getD]; omega)
  have h3 : (VM.new (encodeWords [11, 32768, b, c])).get_value 3 = .ok c := by
    simpa [List.getD] using get_value_encode_lit 3 (w := [11, 32768, b, c]) rfl
      (by simp) (by omega) (by simp [List.getD]; omega)
  have e1 : u16chk ((VM.new (encodeWords [11, 32768, b, c])).addr + 1) = pure 1 := by
    rw [new_addr]; exact u16chk_lt (by omega)
  have e2 : u16chk ((VM.new (encodeWords [11, 32768, b, c])).addr + 2) = pure 2 := by
    rw [new_addr]; exact u16chk_lt (by omega)
  have e3 : u16chk ((VM.new (encodeWords [11, 32768, b, c])).addr + 3) = pure 3 := by
    rw [new_addr]; exact u16chk_lt (by omega)
  have e4 : u16chk ((VM.new (encodeWords [11, 32768, b, c])).addr + 4) = pure 4 := by
    rw [new_addr]; exact u16chk_lt (by omega)
  have hmod : b % c % 32768 = b % c :=
    Nat.mod_eq_of_lt (lt_of_lt_of_le (Nat.mod_lt b hc0) (by omega))
  unfold runReg0
  rw [step_eq_11 _ rfl h0]
  simp only [e1, e2, e3, e4, pure_bind, h1, h2, h3, exbind_ok, hmod]
  rw [if_neg (by omega)]
  rfl

/-- Closed instance of amended C9 at b = 7, c = 3. -/
theorem C9_mod_stores_remainder_for_nonzero_divisor_witness :
    runReg0 [11, 32768, 7, 3] = .ok (7 % 3) :=
  C9_mod_stores_remainder_for_nonzero_divisor 7 3 (by decide) (by decide)
    (by decide)

/-- C10: when the Input Buffer is non-empty, an `in` instruction (opcode
20) consumes the buffer's front byte `c` and delivers it verbatim —
register `a := c`, buffer popped, Program Counter advanced by 2 — for
*every* front byte `c`, including the debug-escape character '/' (47); the
`step_eq_20` arm shows the interactive-stream branch (the `stdinRead`
marker) is only reachable when the buffer is empty, so stdin is not read at
all. -/
theorem C10_in_consumes_buffer_front_verbatim (vm : VM) (a c : Nat)
    (rest : List Nat)
    (hrun : vm.running = true)
    (ho : vm.get_value vm.addr = .ok 20)
    (ha : vm.get_register (vm.addr + 1) = .ok a)
    (hbuf : vm.input_buffer = c :: rest)
    (haddr : vm.addr + 2 < 65536) :
    vm.step = .ok { vm with registers := vm.registers.set a c,
                            input_buffer := rest, addr := vm.addr + 2 } := by
  rw [step_eq_20 vm hrun ho]
  rw [u16chk_lt (show vm.addr + 1 < 65536 by omega), pure_bind, ha, exbind_ok,
    hbuf]
  rw [u16chk_lt haddr]
  rfl

/-- Closed instance of C10 with the escape character '/' (byte 47) at the
front of the buffer: it is delivered to register 0 verbatim. -/
theorem C10_in_consumes_buffer_front_verbatim_witness :
    ({ VM.new (encodeWords [20, 32768]) with input_buffer := [47] } : VM).step =
      .ok { { VM.new (encodeWords [20, 32768]) with input_buffer := [47] } with
            registers := ({ VM.new (encodeWords [20, 32768]) with
              input_buffer := [47] } : VM).registers.set 0 47,
            input_buffer := [],
            addr := ({ VM.new (encodeWords [20, 32768]) with
              input_buffer := [47] } : VM).addr + 2 } :=
  C10_in_consumes_buffer_front_verbatim _ 0 47 [] rfl rfl rfl rfl (by decide)

/-- C5: executing `call T` (opcode 17, occupying words P and P+1) at
Program Counter P pushes P+2 — the address immediately after the operand —
onto the stack and jumps to T (the call-depth diagnostic increments); and
any later `ret` (opcode 18) executed while that value P+2 is on top of the
stack pops it and resumes execution at exactly P+2. -/
theorem C5_call_pushes_next_addr_and_ret_resumes_there (vm : VM) (T : Nat)
    (hrun : vm.running = true)
    (ho : vm.get_value vm.addr = .ok 17)
    (hT : vm.get_value (vm.addr + 1) = .ok T)
    (haddr : vm.addr + 2 < 65536) :
    vm.step = .ok { vm with stack := (vm.addr + 2) :: vm.stack,
                            level := vm.level + 1, addr := T } ∧
    ∀ (w : VM) (rest : List Nat), w.running = true →
      w.get_value w.addr = .ok 18 →
      w.stack = (vm.addr + 2) :: rest → 0 < w.level →
      w.step = .ok { w with stack := rest, level := w.level - 1,
                            addr := vm.addr + 2 } := by
  constructor
  · rw [step_eq_17 vm hrun ho]
    rw [u16chk_lt (show vm.addr + 1 < 65536 by omega), pure_bind, hT, exbind_ok,
      u16chk_lt haddr]
    rfl
  · intro w rest hwrun hw18 hwstack hlev
    rw [step_eq_18 w hwrun hw18]
    unfold VM.pop_stack
    rw [hwstack]
    show (if ({ w with stack := rest } : VM).level = 0 then
        (throw .overflow : Except VMError VM)
      else pure { ({ w with stack := rest } : VM).jump (vm.addr + 2) with
        level := ({ w with stack := rest } : VM).level - 1 }) = _
    rw [if_neg (show ¬ ({ w with stack := rest } : VM).level = 0 from by
      simp only []
      omega)]
    rfl

/-- Closed instance of C5: `call 3` at P = 0 in the program
`[17, 3, 0, 18]` pushes 2 and jumps to 3; the `ret` there resumes at
P+2 = 2. -/
theorem C5_call_pushes_next_addr_and_ret_resumes_there_witness :
    (VM.new (encodeWords [17, 3, 0, 18])).step =
      .ok { VM.new (encodeWords [17, 3, 0, 18]) with
            stack := [2], level := 1, addr := 3 } ∧
    ({ VM.new (encodeWords [17, 3, 0, 18]) with
       stack := [2], level := 1, addr := 3 } : VM).step =
      .ok { VM.new (encodeWords [17, 3, 0, 18]) with
            stack := [], level := 0, addr := 2 } := by
  have h := C5_call_pushes_next_addr_and_ret_resumes_there
    (VM.new (encodeWords [17, 3, 0, 18])) 3 rfl rfl rfl (by decide)
  exact ⟨h.1, h.2 _ [] rfl rfl rfl (by decide)⟩

/-- C8: with `a` an in-image address and `b` in [0,32767], `wmem a b`
(opcode 16) stores `low = b % 256` at byte offset `a*2` and
`high = b >> 8 = b / 256` at `a*2+1`, advancing the Program Counter by 3;
any memory read of address `a` in the resulting state returns exactly `b`
(the write/read round trip through little-endian byte packing), and every
other word address reads unchanged. -/
theorem C8_wmem_writes_byte_pair_and_reads_back (vm : VM) (a b : Nat)
    (hrun : vm.running = true)
    (ho : vm.get_value vm.addr = .ok 16)
    (ha : vm.get_value (vm.addr + 1) = .ok a)
    (hb : vm.get_value (vm.addr + 2) = .ok b)
    (haddr : vm.addr + 3 < 65536)
    (ha32 : a < 32768) (hb32 : b < 32768)
    (hlen : a * 2 + 1 < vm.ram.length) :
    vm.step = .ok { vm with
        ram := (vm.ram.set (a * 2) (b % 256)).set (a * 2 + 1) (b / 256),
        addr := vm.addr + 3 } ∧
    ∀ vm2 : VM, vm.step = .ok vm2 →
      vm2.get_ram a = .ok b ∧
      ∀ j, j < 32768 → j ≠ a → vm2.get_ram j = vm.get_ram j := by
  have l1 : b % 256 % 256 = b % 256 := by omega
  have l2 : b / 256 % 256 = b / 256 := by omega
  have hmain : vm.step = .ok { vm with
      ram := (vm.ram.set (a * 2) (b % 256)).set (a * 2 + 1) (b / 256),
      addr := vm.addr + 3 } := by
    rw [step_eq_16 vm hrun ho]
    rw [u16chk_lt (show vm.addr + 1 < 65536 by omega), pure_bind, ha, exbind_ok,
      u16chk_lt (show vm.addr + 2 < 65536 by omega), pure_bind, hb, exbind_ok,
      u16chk_lt (show a * 2 < 65536 by omega), pure_bind]
    rw [if_pos (show a * 2 < vm.ram.length by omega),
      if_pos (show a * 2 + 1 < vm.ram.length by omega),
      u16chk_lt haddr, pure_bind, l1, l2]
    rfl
  refine ⟨hmain, fun vm2 hstep => ?_⟩
  rw [hmain] at hstep
  obtain rfl : vm2 = { vm with
      ram := (vm.ram.set (a * 2) (b % 256)).set (a * 2 + 1) (b / 256),
      addr := vm.addr + 3 } := (Except.ok.inj hstep).symm
  constructor
  · have g1 : ((vm.ram.set (a * 2) (b % 256)).set (a * 2 + 1) (b / 256)).get?
        (a * 2) = some (b % 256) := by
      rw [List.get?_set_ne _ _ (by omega)]
      exact List.get?_set_eq_of_lt _ (by omega)
    have g2 : ((vm.ram.set (a * 2) (b % 256)).set (a * 2 + 1) (b / 256)).get?
        (a * 2 + 1) = some (b / 256) := by
      refine List.get?_set_eq_of_lt _ ?_
      simpa using hlen
    unfold VM.get_ram
    rw [u16chk_lt (show a * 2 < 65536 by omega)]
    show (do
      let ptr ← (pure (a * 2) : Except VMError Nat)
      let some low := ((vm.ram.set (a * 2) (b % 256)).set (a * 2 + 1)
        (b / 256)).get? ptr | throw (VMError.outOfBounds ptr)
      let some high := ((vm.ram.set (a * 2) (b % 256)).set (a * 2 + 1)
        (b / 256)).get? (ptr + 1) | throw (VMError.outOfBounds (ptr + 1))
      pure (high * 256 + low)) = Except.ok b
    rw [pure_bind, g1, g2]
    show Except.ok (b / 256 * 256 + b % 256) = Except.ok b
    congr 1
    omega
  · intro j hj hja
    have g1 : ((vm.ram.set (a * 2) (b % 256)).set (a * 2 + 1) (b / 256)).get?
        (j * 2) = vm.ram.get? (j * 2) := by
      rw [List.get?_set_ne _ _ (by omega), List.get?_set_ne _ _ (by omega)]
    have g2 : ((vm.ram.set (a * 2) (b % 256)).set (a * 2 + 1) (b / 256)).get?
        (j * 2 + 1) = vm.ram.get? (j * 2 + 1) := by
      rw [List.get?_set_ne _ _ (by omega), List.get?_set_ne _ _ (by omega)]
    unfold VM.get_ram
    rw [u16chk_lt (show j * 2 < 65536 by omega)]
    show (do
      let ptr ← (pure (j * 2) : Except VMError Nat)
      let some low := ((vm.ram.set (a * 2) (b % 256)).set (a * 2 + 1)
        (b / 256)).get? ptr | throw (VMError.outOfBounds ptr)
      let some high := ((vm.ram.set (a * 2) (b % 256)).set (a * 2 + 1)
        (b / 256)).get? (ptr + 1) | throw (VMError.outOfBounds (ptr + 1))
      pure (high * 256 + low)) = _
    rw [pure_bind, pure_bind, g1, g2]

/-- Closed instance of C8: `wmem 4 513` in the five-word program
`[16, 4, 513, 0, 0]` stores bytes 1 and 2 at offsets 8 and 9, after which
reading address 4 gives back 513 and the program words 0–3 are unchanged
(checked here at address 2). -/
theorem C8_wmem_writes_byte_pair_and_reads_back_witness :
    (VM.new (encodeWords [16, 4, 513, 0, 0])).step =
      .ok { VM.new (encodeWords [16, 4, 513, 0, 0]) with
            ram := (((VM.new (encodeWords [16, 4, 513, 0, 0])).ram.set 8
              (513 % 256)).set 9 (513 / 256)),
            addr := 3 } ∧
    ∀ vm2 : VM, (VM.new (encodeWords [16, 4, 513, 0, 0])).step = .ok vm2 →
      vm2.get_ram 4 = .ok 513 ∧
      ∀ j, j < 32768 → j ≠ 4 →
        vm2.get_ram j = (VM.new (encodeWords [16, 4, 513, 0, 0])).get_ram j :=
  C8_wmem_writes_byte_pair_and_reads_back (VM.new (encodeWords [16, 4, 513, 0, 0]))
    4 513 rfl rfl rfl rfl (by decide) (by decide) (by decide) (by decide)

/-! Helpers for the register-range preservation theorem. -/

theorem get_ram_value_lit_lt {vm : VM} {a n : Nat}
    (h : vm.get_ram_value a = .ok (.Literal n)) : n < 32768 := by
  unfold VM.get_ram_value at h
  obtain ⟨num, hnum, h⟩ := exbind_ok_inv h
  split at h
  · next hlt =>
      obtain rfl : num = n := ValueType.Literal.inj (Except.ok.inj h)
      exact hlt
  · split at h
    · exact absurd (Except.ok.inj h) (fun hh => ValueType.noConfusion hh)
    · exact (Except.noConfusion h)

theorem get_value_lt {vm : VM} {a v : Nat}
    (hreg : ∀ i, vm.registers.getD i 0 < 32768)
    (h : vm.get_value a = .ok v) : v < 32768 := by
  unfold VM.get_value at h
  obtain ⟨val, hval, h⟩ := exbind_ok_inv h
  match val with
  | .Register r =>
      obtain rfl : vm.registers.getD r 0 = v := Except.ok.inj h
      exact hreg r
  | .Literal n =>
      obtain rfl : n = v := Except.ok.inj h
      exact get_ram_value_lit_lt hval

theorem set_preserves_lt {l : List Nat} {r v : Nat}
    (hl : ∀ i, l.getD i 0 < 32768) (hv : v < 32768) :
    ∀ i, (l.set r v).getD i 0 < 32768 := by
  intro i
  by_cases hir : i = r
  · subst hir
    by_cases hlen : i < l.length
    · rw [List.getD_eq_getD_get? _ _ _, List.get?_set_eq_of_lt v hlen]
      exact hv
    · rw [List.set_eq_of_length_le (by omega)]
      exact hl i
  · rw [List.getD_eq_getD_get? _ _ _,
      List.get?_set_ne v l (fun hh => hir hh.symm),
      ← List.getD_eq_getD_get? _ _ _]
    exact hl i

theorem pop_stack_inv {vm : VM} {elem : Nat} {vm2 : VM}
    (h : vm.pop_stack = .ok (elem, vm2)) :
    elem ∈ vm.stack ∧ vm2.registers = vm.registers := by
  unfold VM.pop_stack at h
  cases hs : vm.stack with
  | nil => rw [hs] at h; exact (Except.noConfusion h)
  | cons v rest =>
      rw [hs] at h
      have hp : (v, { vm with stack := rest }) = (elem, vm2) := Except.ok.inj h
      obtain ⟨rfl, rfl⟩ := Prod.mk.injEq .. |>.mp hp
      exact ⟨hs ▸ List.mem_cons_self v rest, rfl⟩

/-- C4 amended: a single step that executes any opcode *other than* rmem
(opcode 15) leaves every register below 32768, provided every register,
stack entry and buffered input byte was below 32768 beforehand.  The
original blanket claim — "no register ever holds a value ≥ 32768 in any
reachable state" — is false: `rmem` stores the raw memory word, which may
be a register-reference code (see the counterexample), and the debug `set`
command likewise accepts any u16.  For every other opcode the value
written to a register, if any, is reduced mod 32768, is a 0/1 flag, or is
drawn from the (bounded) stack or Input Buffer. -/
theorem C4_non_rmem_steps_preserve_register_range (vm vm' : VM) (o : Nat)
    (hreg : ∀ i, vm.registers.getD i 0 < 32768)
    (hstk : ∀ v ∈ vm.stack, v < 32768)
    (hbuf : ∀ b ∈ vm.input_buffer, b < 32768)
    (ho : vm.get_value vm.addr = .ok o)
    (hno : o ≠ 15)
    (hstep : vm.step = .ok vm') :
    ∀ i, vm'.registers.getD i 0 < 32768 := by
  have hrun : vm.running = true := by
    cases hr : vm.running
    · unfold VM.step at hstep
      rw [hr] at hstep
      exact (Except.noConfusion hstep)
    · rfl
  rcases o with _|_|_|_|_|_|_|_|_|_|_|_|_|_|_|_|_|_|_|_|_|_|o
  · -- halt
    rw [step_eq_0 vm hrun ho] at hstep
    obtain rfl := Except.ok.inj hstep
    exact hreg
  · -- set
    rw [step_eq_1 vm hrun ho] at hstep
    obtain ⟨p1, hp1, hstep⟩ := exbind_ok_inv hstep
    obtain ⟨a, ha, hstep⟩ := exbind_ok_inv hstep
    obtain ⟨p2, hp2, hstep⟩ := exbind_ok_inv hstep
    obtain ⟨b, hb, hstep⟩ := exbind_ok_inv hstep
    obtain ⟨a2, ha2, hstep⟩ := exbind_ok_inv hstep
    obtain rfl := Except.ok.inj hstep
    exact set_preserves_lt hreg (get_value_lt hreg hb)
  · -- push
    rw [step_eq_2 vm hrun ho] at hstep
    obtain ⟨p1, hp1, hstep⟩ := exbind_ok_inv hstep
    obtain ⟨a, ha, hstep⟩ := exbind_ok_inv hstep
    obtain ⟨a2, ha2, hstep⟩ := exbind_ok_inv hstep
    obtain rfl := Except.ok.inj hstep
    exact hreg
  · -- pop
    rw [step_eq_3 vm hrun ho] at hstep
    obtain ⟨p1, hp1, hstep⟩ := exbind_ok_inv hstep
    obtain ⟨a, ha, hstep⟩ := exbind_ok_inv hstep
    obtain ⟨pr, hpr, hstep⟩ := exbind_ok_inv hstep
    obtain ⟨elem, vm2⟩ := pr
    obtain ⟨hmem, hregs⟩ := pop_stack_inv hpr
    obtain ⟨a2, ha2, hstep⟩ := exbind_ok_inv hstep
    obtain rfl := Except.ok.inj hstep
    intro i
    show ((vm2.registers.set a elem).getD i 0) < 32768
    rw [hregs]
    exact set_preserves_lt hreg (hstk elem hmem) i
  · -- eq
    rw [step_eq_4 vm hrun ho] at hstep
    obtain ⟨p1, hp1, hstep⟩ := exbind_ok_inv hstep
    obtain ⟨a, ha, hstep⟩ := exbind_ok_inv hstep
    obtain ⟨p2, hp2, hstep⟩ := exbind_ok_inv hstep
    obtain ⟨b, hb, hstep⟩ := exbind_ok_inv hstep
    obtain ⟨p3, hp3, hstep⟩ := exbind_ok_inv hstep
    obtain ⟨c, hc, hstep⟩ := exbind_ok_inv hstep
    obtain ⟨a2, ha2, hstep⟩ := exbind_ok_inv hstep
    obtain rfl := Except.ok.inj hstep
    exact set_preserves_lt hreg (by split <;> omega)
  · -- gt
    rw [step_eq_5 vm hrun ho] at hstep
    obtain ⟨p1, hp1, hstep⟩ := exbind_ok_inv hstep
    obtain ⟨a, ha, hstep⟩ := exbind_ok_inv hstep
    obtain ⟨p2, hp2, hstep⟩ := exbind_ok_inv hstep
    obtain ⟨b, hb, hstep⟩ := exbind_ok_inv hstep
    obtain ⟨p3, hp3, hstep⟩ := exbind_ok_inv hstep
    obtain ⟨c, hc, hstep⟩ := exbind_ok_inv hstep
    obtain ⟨a2, ha2, hstep⟩ := exbind_ok_inv hstep
    obtain rfl := Except.ok.inj hstep
    exact set_preserves_lt hreg (by split <;> omega)
  · -- jmp
    rw [step_eq_6 vm hrun ho] at hstep
    obtain ⟨p1, hp1, hstep⟩ := exbind_ok_inv hstep
    obtain ⟨a, ha, hstep⟩ := exbind_ok_inv hstep
    obtain rfl := Except.ok.inj hstep
    exact hreg
  · -- jt
    rw [step_eq_7 vm hrun ho] at hstep
    obtain ⟨p1, hp1, hstep⟩ := exbind_ok_inv hstep
    obtain ⟨a, ha, hstep⟩ := exbind_ok_inv hstep
    obtain ⟨p2, hp2, hstep⟩ := exbind_ok_inv hstep
    obtain ⟨b, hb, hstep⟩ := exbind_ok_inv hstep
    split at hstep
    · obtain rfl := Except.ok.inj hstep
      exact hreg
    · obtain ⟨a2, ha2, hstep⟩ := exbind_ok_inv hstep
      obtain rfl := Except.ok.inj hstep
      exact hreg
  · -- jf
    rw [step_eq_8 vm hrun ho] at hstep
    obtain ⟨p1, hp1, hstep⟩ := exbind_ok_inv hstep
    obtain ⟨a, ha, hstep⟩ := exbind_ok_inv hstep
    obtain ⟨p2, hp2, hstep⟩ := exbind_ok_inv hstep
    obtain ⟨b, hb, hstep⟩ := exbind_ok_inv hstep
    split at hstep
    · obtain rfl := Except.ok.inj hstep
      exact hreg
    · obtain ⟨a2, ha2, hstep⟩ := exbind_ok_inv hstep
      obtain rfl := Except.ok.inj hstep
      exact hreg
  · -- add
    rw [step_eq_9 vm hrun ho] at hstep
    obtain ⟨p1, hp1, hstep⟩ := exbind_ok_inv hstep
    obtain ⟨a, ha, hstep⟩ := exbind_ok_inv hstep
    obtain ⟨p2, hp2, hstep⟩ := exbind_ok_inv hstep
    obtain ⟨b, hb, hstep⟩ := exbind_ok_inv hstep
    obtain ⟨p3, hp3, hstep⟩ := exbind_ok_inv hstep
    obtain ⟨c, hc, hstep⟩ := exbind_ok_inv hstep
    obtain ⟨sum, hsum, hstep⟩ := exbind_ok_inv hstep
    obtain ⟨a2, ha2, hstep⟩ := exbind_ok_inv hstep
    obtain rfl := Except.ok.inj hstep
    exact set_preserves_lt hreg (by omega)
  · -- mult
    rw [step_eq_10 vm hrun ho] at hstep
    obtain ⟨p1, hp1, hstep⟩ := exbind_ok_inv hstep
    obtain ⟨a, ha, hstep⟩ := exbind_ok_inv hstep
    obtain ⟨p2, hp2, hstep⟩ := exbind_ok_inv hstep
    obtain ⟨b, hb, hstep⟩ := exbind_ok_inv hstep
    obtain ⟨p3, hp3, hstep⟩ := exbind_ok_inv hstep
    obtain ⟨c, hc, hstep⟩ := exbind_ok_inv hstep
    obtain ⟨a2, ha2, hstep⟩ := exbind_ok_inv hstep
    obtain rfl := Except.ok.inj hstep
    exact set_preserves_lt hreg (by omega)
  · -- mod
    rw [step_eq_11 vm hrun ho] at hstep
    obtain ⟨p1, hp1, hstep⟩ := exbind_ok_inv hstep
    obtain ⟨a, ha, hstep⟩ := exbind_ok_inv hstep
    obtain ⟨p2, hp2, hstep⟩ := exbind_ok_inv hstep
    obtain ⟨b, hb, hstep⟩ := exbind_ok_inv hstep
    obtain ⟨p3, hp3, hstep⟩ := exbind_ok_inv hstep
    obtain ⟨c, hc, hstep⟩ := exbind_ok_inv hstep
    split at hstep
    · exact (Except.noConfusion hstep)
    · obtain ⟨a2, ha2, hstep⟩ := exbind_ok_inv hstep
      obtain rfl := Except.ok.inj hstep
      exact set_preserves_lt hreg (by omega)
  · -- and
    rw [step_eq_12 vm hrun ho] at hstep
    obtain ⟨p1, hp1, hstep⟩ := exbind_ok_inv hstep
    obtain ⟨a, ha, hstep⟩ := exbind_ok_inv hstep
    obtain ⟨p2, hp2, hstep⟩ := exbind_ok_inv hstep
    obtain ⟨b, hb, hstep⟩ := exbind_ok_inv hstep
    obtain ⟨p3, hp3, hstep⟩ := exbind_ok_inv hstep
    obtain ⟨c, hc, hstep⟩ := exbind_ok_inv hstep
    obtain ⟨a2, ha2, hstep⟩ := exbind_ok_inv hstep
    obtain rfl := Except.ok.inj hstep
    exact set_preserves_lt hreg (by omega)
  · -- or
    rw [step_eq_13 vm hrun ho] at hstep
    obtain ⟨p1, hp1, hstep⟩ := exbind_ok_inv hstep
    obtain ⟨a, ha, hstep⟩ := exbind_ok_inv hstep
    obtain ⟨p2, hp2, hstep⟩ := exbind_ok_inv hstep
    obtain ⟨b, hb, hstep⟩ := exbind_ok_inv hstep
    obtain ⟨p3, hp3, hstep⟩ := exbind_ok_inv hstep
    obtain ⟨c, hc, hstep⟩ := exbind_ok_inv hstep
    obtain ⟨a2, ha2, hstep⟩ := exbind_ok_inv hstep
    obtain rfl := Except.ok.inj hstep
    exact set_preserves_lt hreg (by omega)
  · -- not
    rw [step_eq_14 vm hrun ho] at hstep
    obtain ⟨p1, hp1, hstep⟩ := exbind_ok_inv hstep
    obtain ⟨a, ha, hstep⟩ := exbind_ok_inv hstep
    obtain ⟨p2, hp2, hstep⟩ := exbind_ok_inv hstep
    obtain ⟨b, hb, hstep⟩ := exbind_ok_inv hstep
    obtain ⟨a2, ha2, hstep⟩ := exbind_ok_inv hstep
    obtain rfl := Except.ok.inj hstep
    exact set_preserves_lt hreg (by omega)
  · -- rmem: excluded by hypothesis
    exact absurd rfl hno
  · -- wmem
    rw [step_eq_16 vm hrun ho] at hstep
    obtain ⟨p1, hp1, hstep⟩ := exbind_ok_inv hstep
    obtain ⟨a, ha, hstep⟩ := exbind_ok_inv hstep
    obtain ⟨p2, hp2, hstep⟩ := exbind_ok_inv hstep
    obtain ⟨b, hb, hstep⟩ := exbind_ok_inv hstep
    obtain ⟨ptr, hptr, hstep⟩ := exbind_ok_inv hstep
    split at hstep
    · split at hstep
      · obtain ⟨a2, ha2, hstep⟩ := exbind_ok_inv hstep
        obtain rfl := Except.ok.inj hstep
        exact hreg
      · exact (Except.noConfusion hstep)
    · exact (Except.noConfusion hstep)
  · -- call
    rw [step_eq_17 vm hrun ho] at hstep
    obtain ⟨p1, hp1, hstep⟩ := exbind_ok_inv hstep
    obtain ⟨a, ha, hstep⟩ := exbind_ok_inv hstep
    obtain ⟨r, hr, hstep⟩ := exbind_ok_inv hstep
    obtain rfl := Except.ok.inj hstep
    exact hreg
  · -- ret
    rw [step_eq_18 vm hrun ho] at hstep
    obtain ⟨pr, hpr, hstep⟩ := exbind_ok_inv hstep
    obtain ⟨elem, vm2⟩ := pr
    obtain ⟨hmem, hregs⟩ := pop_stack_inv hpr
    have hstep2 : (if vm2.level = 0 then (throw VMError.overflow : Except VMError VM)
        else pure { vm2.jump elem with level := vm2.level - 1 }) = .ok vm' := hstep
    split at hstep2
    · exact (Except.noConfusion hstep2)
    · obtain rfl := Except.ok.inj hstep2
      intro i
      show (vm2.registers.getD i 0) < 32768
      rw [hregs]
      exact hreg i
  · -- out
    rw [step_eq_19 vm hrun ho] at hstep
    obtain ⟨p1, hp1, hstep⟩ := exbind_ok_inv hstep
    obtain ⟨a, ha, hstep⟩ := exbind_ok_inv hstep
    obtain ⟨a2, ha2, hstep⟩ := exbind_ok_inv hstep
    obtain rfl := Except.ok.inj hstep
    exact hreg
  · -- in
    rw [step_eq_20 vm hrun ho] at hstep
    obtain ⟨p1, hp1, hstep⟩ := exbind_ok_inv hstep
    obtain ⟨a, ha, hstep⟩ := exbind_ok_inv hstep
    cases hib : vm.input_buffer with
    | nil =>
        rw [hib] at hstep
        exact (Except.noConfusion hstep)
    | cons c rest =>
        rw [hib] at hstep
        obtain ⟨a2, ha2, hstep⟩ := exbind_ok_inv hstep
        obtain rfl := Except.ok.inj hstep
        exact set_preserves_lt hreg (hbuf c (hib ▸ List.mem_cons_self c rest))
  · -- no-op
    rw [step_eq_21 vm hrun ho] at hstep
    obtain ⟨a2, ha2, hstep⟩ := exbind_ok_inv hstep
    obtain rfl := Except.ok.inj hstep
    exact hreg
  · -- unknown opcode: the step errors, contradiction
    rw [step_eq_unknown vm o hrun ho] at hstep
    exact (Except.noConfusion hstep)

/-- Registers of a freshly loaded machine are all zero, hence in range. -/
theorem new_registers_lt (rom : List Nat) (i : Nat) :
    (VM.new rom).registers.getD i 0 < 32768 := by
  show (List.replicate 8 (0:Nat)).getD i 0 < 32768
  rw [List.getD_eq_getD_get? _ _ _]
  cases h : (List.replicate 8 (0:Nat)).get? i with
  | none => decide
  | some v => simp [List.eq_of_mem_replicate (List.get?_mem h)]

/-- Closed instance of the amended C4 theorem: one `add` step on a fresh
machine leaves register 0 below 32768. -/
theorem C4_non_rmem_steps_preserve_register_range_witness :
    ({ VM.new (encodeWords [9, 32768, 3, 4]) with
       registers := [7, 0, 0, 0, 0, 0, 0, 0], addr := 4 } : VM).registers.getD
      0 0 < 32768 :=
  C4_non_rmem_steps_preserve_register_range
    (VM.new (encodeWords [9, 32768, 3, 4]))
    { VM.new (encodeWords [9, 32768, 3, 4]) with
      registers := [7, 0, 0, 0, 0, 0, 0, 0], addr := 4 }
    9
    (fun i => new_registers_lt (encodeWords [9, 32768, 3, 4]) i)
    (fun v hv => absurd hv (List.not_mem_nil v))
    (fun b hb => absurd hb (List.not_mem_nil b))
    rfl (by decide) rfl 0

end Synacor
